import Mathlib

/-!
Verification of the BookedUp speed-quiz room hub.

The definitions below are a shallow embedding of `app/room_manager.py` and of
the WebSocket message handlers in `app/main.py` (the `ws` endpoint).  Python
dicts are modelled as insertion-ordered association lists (Python ≥ 3.7
guarantees insertion order and the code relies on it only for iteration
order); Python lists are Lean lists; WebSocket connection objects are opaque
`Nat` tokens compared by identity; machine integers are `Int` (no overflow is
possible at these magnitudes in Python); Python float arithmetic inside the
scoring function is modelled as exact rational arithmetic.
-/

namespace BookedUp

/-! ## Python dict / list primitives -/

/-- Lookup in a Python dict modelled as an association list (`d.get(k)` /
`d[k]`); returns the first binding, and dicts built by the code below keep
keys unique. -/
def dictLookup {K V : Type} [DecidableEq K] : List (K × V) → K → Option V
  | [], _ => none
  | (k', v) :: rest, k => if k' = k then some v else dictLookup rest k

/-- Python `d[k] = v`: replace the value in place if the key is present
(keeping its position, as Python dicts do), otherwise append the new binding
at the end. -/
def dictSet {K V : Type} [DecidableEq K] : List (K × V) → K → V → List (K × V)
  | [], k, v => [(k, v)]
  | (k', v') :: rest, k, v =>
    if k' = k then (k, v) :: rest else (k', v') :: dictSet rest k v

/-- Python `d.setdefault(k, v)`: leave the dict unchanged when the key is
present, otherwise append `(k, v)`. -/
def dictSetdefault {K V : Type} [DecidableEq K] (m : List (K × V)) (k : K) (v : V) :
    List (K × V) :=
  match dictLookup m k with
  | some _ => m
  | none => m ++ [(k, v)]

/-- Python `del d[k]` guarded by `if k in d` (removes the binding when
present). -/
def dictErase {K V : Type} [DecidableEq K] (m : List (K × V)) (k : K) : List (K × V) :=
  m.filter (fun p => decide (p.1 ≠ k))

/-- Python `d.values()` in insertion order. -/
def dictValues {K V : Type} (m : List (K × V)) : List V :=
  m.map Prod.snd

/-- Python list indexing: a nonnegative index is looked up directly, a
negative index `i` addresses position `len + i`; anything else raises
`IndexError` (modelled as `none`). -/
def pyIdx (len : Nat) (i : Int) : Option Nat :=
  if 0 ≤ i then (if i < (len : Int) then some i.toNat else none)
  else (if 0 ≤ i + (len : Int) then some (i + (len : Int)).toNat else none)

/-- Python `l[i]` with negative-index semantics. -/
def pyGet {α : Type} (l : List α) (i : Int) : Option α :=
  (pyIdx l.length i).bind (fun n => l.get? n)

/-- Python `counts[i] += 1` on a list of counters, with negative-index
semantics; `none` models an `IndexError`. -/
def pyIncr (counts : List Int) (i : Int) : Option (List Int) :=
  (pyIdx counts.length i).map (fun n => counts.set n (counts.getD n 0 + 1))

/-! ## Data model (`app/room_manager.py`) -/

/-- Dataclass `Team`. -/
structure Team where
  id : String
  name : String
  score : Int
  deriving DecidableEq, Repr

/-- Dataclass `Answer`. -/
structure Answer where
  team_id : String
  question_id : String
  opt : Int
  submitted_at : Int
  ms_remaining : Int
  deriving DecidableEq, Repr

/-- Dataclass `Question` (`option` field of the Python `Answer` is spelled
`opt` here; `Question.answer` is the correct option index). -/
structure Question where
  id : String
  text : String
  options : List String
  answer : Int
  timeLimit : Int
  imageUrl : Option String
  deriving DecidableEq, Repr

/-- Dataclass `Quiz`. -/
structure Quiz where
  id : Int
  title : String
  questions : List Question
  deriving DecidableEq, Repr

/-- Dataclass `Room`.  Connections are opaque `Nat` tokens. -/
structure Room where
  id : String
  quiz_id : Option Int := none
  state : String := "lobby"
  current_index : Int := -1
  question_end_at : Int := 0
  venue_title : String := ""
  venue_logo : String := ""
  venue_id : Option Int := none
  host_user_id : Option Int := none
  teams : List (String × Team) := []
  answers : List (String × List (String × Answer)) := []
  host_connections : List Nat := []
  team_connections : List (String × Nat) := []
  display_connections : List Nat := []
  deriving DecidableEq, Repr

/-- `RoomManager.score_answer`.  Python computes
`speed = 0.5 + 0.5 * max(0.0, min(1.0, remaining_ms / max(1, total_ms)))` in
floats and returns `int(100 * speed)`; float arithmetic is modelled as exact
rational arithmetic, and since the operand is nonnegative the `int(...)`
truncation coincides with the floor. -/
def score_answer (is_correct : Bool) (total_ms remaining_ms : Int) : Int :=
  if is_correct = false then 0
  else ⌊(100 : ℚ) * ((1 : ℚ)/2 + (1 : ℚ)/2 *
        max 0 (min 1 ((remaining_ms : ℚ) / ((max 1 total_ms : Int) : ℚ))))⌋

/-- Clamp on rationals, following the spec wording
`clamp(x, lo, hi) = max(lo, min(hi, x))`. -/
def clampQ (x lo hi : ℚ) : ℚ := max lo (min hi x)

/-- Modelled from the spec's words (§4.5), for comparison with the source
function `score_answer`: `base = 100`;
`fraction = clamp(remainingMs / max(1, totalTimeLimitMs), 0.0, 1.0)`;
`speedFactor = 0.5 + 0.5 * fraction`; returns `floor(base * speedFactor)`,
and 0 when not correct. -/
def specScore (isCorrect : Bool) (totalTimeLimitMs remainingMs : Int) : Int :=
  if isCorrect then
    ⌊(100 : ℚ) * ((1 : ℚ)/2 + (1 : ℚ)/2 *
      clampQ ((remainingMs : ℚ) / ((max 1 totalTimeLimitMs : Int) : ℚ)) 0 1)⌋
  else 0

/-- `RoomManager.get_quiz` reached through the guard
`quiz = manager.get_quiz(room.quiz_id) if room.quiz_id else None` used by the
`host:start_question` and `team:answer` branches: a `None` or `0` quiz id is
falsy and short-circuits to `None`. -/
def resolveQuizTruthy (quizzes : List (Int × Quiz)) (quiz_id : Option Int) : Option Quiz :=
  match quiz_id with
  | none => none
  | some qid => if qid = 0 then none else dictLookup quizzes qid

/-- Resolve the submitting connection to its team id:
`for tid, conn in room.team_connections.items(): if conn is ws: ...`. -/
def findTeamByConn : List (String × Nat) → Nat → Option String
  | [], _ => none
  | (tid, c) :: rest, w => if c = w then some tid else findTeamByConn rest w

/-- The running recomputation of the 4-slot histogram:
`counts = [0,0,0,0]; for a in bucket.values(): counts[a.option] += 1`.
`none` models the `IndexError` raised when some stored option is outside the
Python index range of a 4-element list. -/
def tally : List Answer → List Int → Option (List Int)
  | [], counts => some counts
  | a :: rest, counts =>
    match pyIncr counts a.opt with
    | none => none
    | some counts' => tally rest counts'

/-! ## WebSocket handler branches (`app/main.py`, `ws`) -/

/-- Result of the `team:answer` branch.  `ignored` is a silent `continue`;
`raised` is an uncaught exception (error unicast + close); in `accepted`,
`progress = none` means the post-acknowledgement histogram recomputation
raised `IndexError` (the answer was already stored and acknowledged, but no
`answers:progress` push happens and the connection errors out). -/
inductive AnswerOutcome where
  | ignored
  | raised
  | rejected (reason : String)
  | accepted (remainingMs : Int) (progress : Option (List Int))
  deriving DecidableEq, Repr

/-- The `team:answer` branch (main.py lines 284-303). -/
def ws_team_answer (quizzes : List (Int × Quiz)) (room : Room) (wsId : Nat)
    (optionRaw : Int) (now : Int) : Room × AnswerOutcome :=
  match resolveQuizTruthy quizzes room.quiz_id with
  | none => (room, .ignored)
  | some quiz =>
    if room.current_index < 0 then (room, .ignored)
    else
      match pyGet quiz.questions room.current_index with
      | none => (room, .raised)
      | some q =>
        if now > room.question_end_at ∨ room.state ≠ "asking" then
          (room, .rejected "late")
        else
          match findTeamByConn room.team_connections wsId with
          | none => (room, .ignored)
          | some tid =>
            let answers1 := dictSetdefault room.answers q.id []
            let bucket := (dictLookup answers1 q.id).getD []
            if (dictLookup bucket tid).isSome then
              ({ room with answers := answers1 }, .rejected "already answered")
            else
              let remaining := max 0 (room.question_end_at - now)
              let a : Answer :=
                { team_id := tid, question_id := q.id, opt := optionRaw,
                  submitted_at := now, ms_remaining := remaining }
              let bucket' := dictSet bucket tid a
              ({ room with answers := dictSet answers1 q.id bucket' },
               .accepted remaining (tally (dictValues bucket') [0, 0, 0, 0]))

/-- Result of the `host:start_question` branch.  `raised` is unreachable:
the in-range check precedes the list access. -/
inductive StartOutcome where
  | errNoQuiz
  | errNoMore
  | raised
  | started (questionId : String) (endAt : Int)
  deriving DecidableEq, Repr

/-- The `host:start_question` branch (main.py lines 247-260).  Note that
`room.current_index` is mutated before the bounds check. -/
def ws_host_start_question (quizzes : List (Int × Quiz)) (room : Room)
    (idx : Option Int) (timeLimitMs : Option Int) (now : Int) : Room × StartOutcome :=
  match resolveQuizTruthy quizzes room.quiz_id with
  | none => (room, .errNoQuiz)
  | some quiz =>
    let newIdx := idx.getD (room.current_index + 1)
    let room1 := { room with current_index := newIdx }
    if newIdx < 0 ∨ (quiz.questions.length : Int) ≤ newIdx then (room1, .errNoMore)
    else
      match pyGet quiz.questions newIdx with
      | none => (room1, .raised)
      | some q =>
        let ttl := timeLimitMs.getD q.timeLimit
        ({ room1 with
            question_end_at := now + ttl,
            state := "asking",
            answers := dictSetdefault room1.answers q.id [] },
         .started q.id (now + ttl))

/-- Result of the `host:lock` branch.  The room carried by `raised` records
that `room.state = "locked"` was assigned before the failing question
lookup. -/
inductive LockOutcome where
  | raised (room : Room)
  | ok (room : Room) (questionId : String)
  deriving DecidableEq, Repr

/-- The `host:lock` branch (main.py lines 262-265).  `state` is set first;
then `quiz.questions[room.current_index]` is evaluated with Python
negative-index semantics (no guard that a question is active). -/
def ws_host_lock (quizzes : List (Int × Quiz)) (room : Room) : LockOutcome :=
  let room1 := { room with state := "locked" }
  match room.quiz_id.bind (fun qid => dictLookup quizzes qid) with
  | none => .raised room1
  | some quiz =>
    match pyGet quiz.questions room.current_index with
    | none => .raised room1
    | some q => .ok room1 q.id

/-- Update every binding of `tid` in the roster, modelling the in-place
`team.score += delta` on the `Team` object found by `room.teams.get`. -/
def creditTeam (teams : List (String × Team)) (tid : String) (delta : Int) :
    List (String × Team) :=
  teams.map (fun p => if p.1 = tid then (p.1, { p.2 with score := p.2.score + delta }) else p)

/-- The reveal loop:
`for a in ansmap.values(): counts[a.option] += 1; if a.option == q.answer:
team = room.teams.get(a.team_id); if team: team.score += score_answer(...)`.
`none` models the `IndexError` on an out-of-range option (partial mutations
already performed before the raise are not observable by any claim and are
not carried). -/
def revealFold (qAnswer tl : Int) : List Answer → List Int → List (String × Team) →
    Option (List Int × List (String × Team))
  | [], counts, teams => some (counts, teams)
  | a :: rest, counts, teams =>
    match pyIncr counts a.opt with
    | none => none
    | some counts' =>
      let teams' :=
        if a.opt = qAnswer then
          match dictLookup teams a.team_id with
          | some _ => creditTeam teams a.team_id (score_answer true tl a.ms_remaining)
          | none => teams
        else teams
      revealFold qAnswer tl rest counts' teams'

/-- Stable descending insertion used to model Python's stable
`sorted(..., key=score, reverse=True)`. -/
def insertTeamDesc (x : Team) : List Team → List Team
  | [] => [x]
  | y :: ys => if y.score ≤ x.score then x :: y :: ys else y :: insertTeamDesc x ys

/-- Stable sort of the roster by descending score. -/
def sortTeamsDesc : List Team → List Team
  | [] => []
  | x :: xs => insertTeamDesc x (sortTeamsDesc xs)

/-- Result of the `host:reveal` branch.  `raised` is an uncaught exception
(error unicast + close; no `results:summary` broadcast). -/
inductive RevealOutcome where
  | raised
  | ok (room : Room) (counts : List Int) (correctIndex : Int)
      (leaderboard : List (String × String × Int))
  deriving DecidableEq, Repr

/-- The `host:reveal` branch (main.py lines 267-277).  There is no guard on
`room.state`: the tally-and-credit loop runs whatever the current state is,
and only afterwards is `state` set to `"revealed"`. -/
def ws_host_reveal (quizzes : List (Int × Quiz)) (room : Room) : RevealOutcome :=
  match room.quiz_id.bind (fun qid => dictLookup quizzes qid) with
  | none => .raised
  | some quiz =>
    match pyGet quiz.questions room.current_index with
    | none => .raised
    | some q =>
      let bucket := (dictLookup room.answers q.id).getD []
      match revealFold q.answer q.timeLimit (dictValues bucket) [0, 0, 0, 0] room.teams with
      | none => .raised
      | some (counts, teams') =>
        .ok { room with state := "revealed", teams := teams' } counts q.answer
          ((sortTeamsDesc (dictValues teams')).map (fun t => (t.id, t.name, t.score)))

/-- Score of `tid` in the room carried by a successful reveal outcome. -/
def revealTeamScore (o : RevealOutcome) (tid : String) : Option Int :=
  match o with
  | .ok r _ _ _ => (dictLookup r.teams tid).map Team.score
  | .raised => none

/-- The team-connection part of the `WebSocketDisconnect` handler
(main.py lines 308-312): remove the first `(tid, conn)` binding whose
connection is the closed one, delete that team's roster entry, and stop. -/
def teamCleanup (w : Nat) : List (String × Nat) → List (String × Team) →
    List (String × Nat) × List (String × Team)
  | [], teams => ([], teams)
  | (tid, c) :: rest, teams =>
    if c = w then (rest, dictErase teams tid)
    else
      let r := teamCleanup w rest teams
      ((tid, c) :: r.1, r.2)

/-- The per-room body of the `WebSocketDisconnect` handler (main.py lines
304-312): drop the connection from the host and display lists (first
occurrence, as `list.remove` does) and run the team cleanup. -/
def ws_disconnect_cleanup (room : Room) (w : Nat) : Room :=
  let tc := teamCleanup w room.team_connections room.teams
  { room with
    host_connections := room.host_connections.erase w,
    display_connections := room.display_connections.erase w,
    team_connections := tc.1,
    teams := tc.2 }

/-- The connections `RoomManager.broadcast` attempts delivery to, in order
(room_manager.py lines 95-104). -/
def broadcastTargets (room : Room) : List Nat :=
  room.host_connections ++ room.team_connections.map Prod.snd ++ room.display_connections

/-! ## Quiz catalog reload (`RoomManager.load_quizzes`) -/

/-- The decoded shape of one entry of `payload["questions"]`.  A `none`
field models a key absent from the JSON object; `q["text"]`, `q["options"]`
and `q["answer"]` are accessed with `[...]` and raise `KeyError` when
absent, the rest use `.get` defaults. -/
structure PayloadQuestion where
  qid : Option String
  qtext : Option String
  qoptions : Option (List String)
  qanswer : Option Int
  qtimeLimit : Option Int
  qimageUrl : Option String
  deriving DecidableEq, Repr

/-- The decoded shape of `json.loads(data_json)`. -/
structure Payload where
  ptitle : Option String
  pquestions : Option (List PayloadQuestion)
  deriving DecidableEq, Repr

/-- One `{id, title, data_json}` record handed to `load_quizzes`.
`data_json = none` models a `data_json` string on which `json.loads`
raises. -/
structure QuizRow where
  id : Int
  title : String
  data_json : Option Payload
  deriving DecidableEq, Repr

/-- Build one `Question` from a decoded payload entry (`i` is the 0-based
position used for the synthesized id `q<i+1>`); `none` models the `KeyError`
raised on a missing required field. -/
def parseQuestion (i : Nat) (pq : PayloadQuestion) : Option Question :=
  match pq.qtext, pq.qoptions, pq.qanswer with
  | some t, some opts, some ans =>
    some { id := pq.qid.getD ("q" ++ toString (i + 1)), text := t, options := opts,
           answer := ans, timeLimit := pq.qtimeLimit.getD 20000, imageUrl := pq.qimageUrl }
  | _, _, _ => none

/-- The `for i, q in enumerate(payload.get("questions", []))` loop. -/
def parseQuestions : Nat → List PayloadQuestion → Option (List Question)
  | _, [] => some []
  | i, pq :: rest =>
    match parseQuestion i pq with
    | none => none
    | some q => (parseQuestions (i + 1) rest).map (fun qs => q :: qs)

/-- Decode one row into a `Quiz` (`none` models any exception raised while
processing the row: `json.loads` failure or a missing question field). -/
def parseRow (r : QuizRow) : Option Quiz :=
  match r.data_json with
  | none => none
  | some payload =>
    (parseQuestions 0 (payload.pquestions.getD [])).map
      (fun qs => { id := r.id, title := payload.ptitle.getD r.title, questions := qs })

/-- The row loop of `load_quizzes`, carried out on the already-cleared
index; the `Bool` is `false` when an exception aborted the loop, in which
case the accumulated partial index is what `self.quizzes` is left holding. -/
def loadQuizzesGo (acc : List (Int × Quiz)) : List QuizRow → List (Int × Quiz) × Bool
  | [] => (acc, true)
  | r :: rest =>
    match parseRow r with
    | none => (acc, false)
    | some quiz => loadQuizzesGo (dictSet acc r.id quiz) rest

/-- `RoomManager.load_quizzes` (room_manager.py lines 61-76): the method
starts with `self.quizzes.clear()`, then loads row by row; an exception
propagates out of the method, leaving `self.quizzes` as accumulated so
far. -/
def load_quizzes (rows : List QuizRow) : List (Int × Quiz) × Bool :=
  loadQuizzesGo [] rows


/-! ## Concrete fixtures used by counterexamples and witnesses -/

/-- A 4-option question whose correct option is 1 (20 s limit). -/
def qA : Question :=
  { id := "q1", text := "Q1", options := ["A", "B", "C", "D"], answer := 1,
    timeLimit := 20000, imageUrl := none }

/-- A second 4-option question, correct option 2. -/
def qB : Question :=
  { id := "q2", text := "Q2", options := ["A", "B", "C", "D"], answer := 2,
    timeLimit := 20000, imageUrl := none }

/-- A third 4-option question, correct option 0 (10 s limit). -/
def qC : Question :=
  { id := "q3", text := "Q3", options := ["A", "B", "C", "D"], answer := 0,
    timeLimit := 10000, imageUrl := none }

/-- A three-question demo quiz. -/
def demoQuiz : Quiz := { id := 1, title := "Demo", questions := [qA, qB, qC] }

/-- A catalog holding the demo quiz under id 1. -/
def demoQuizzes : List (Int × Quiz) := [(1, demoQuiz)]

/-- A fresh room with the demo quiz selected, still in the lobby. -/
def baseRoom : Room :=
  { id := "ROOM01", quiz_id := some 1, host_user_id := some 7 }


/-- The answer stored for `(tid, qid)` in a room: bucket lookup then team
lookup. -/
def storedAnswer (room : Room) (qid tid : String) : Option Answer :=
  (dictLookup room.answers qid).bind (fun b => dictLookup b tid)


/-- Total score credited to `tid` during one reveal loop: the sum of
`score_answer` over the answers in the bucket list that belong to `tid` and
match the correct option. -/
def sumDelta (qa tl : Int) (tid : String) : List Answer → Int
  | [] => 0
  | a :: rest =>
    (if a.team_id = tid ∧ a.opt = qa then score_answer true tl a.ms_remaining else 0) +
      sumDelta qa tl tid rest

/-- The per-team score delta the claims describe: `score_answer` of the
team's unique bucket entry when its option matches the correct one, else
0. -/
def claimDelta (qa tl : Int) (bucket : List (String × Answer)) (tid : String) : Int :=
  ((dictLookup bucket tid).map
    (fun a => if a.opt = qa then score_answer true tl a.ms_remaining else 0)).getD 0


/-- The Answer record constructed by the `team:answer` branch. -/
def mkAnswer (tid qid : String) (opt now rem : Int) : Answer :=
  { team_id := tid, question_id := qid, opt := opt, submitted_at := now, ms_remaining := rem }

/-- A room already revealed for question `q1` of the demo quiz: team `t1`
answered the correct option 1 with 5000 ms left of the 20000 ms limit and
has already been credited `score_answer(true, 20000, 5000) = 62`. -/
def c2Room : Room :=
  { baseRoom with
    state := "revealed", current_index := 0, question_end_at := 10000,
    teams := [("t1", { id := "t1", name := "Alpha", score := 62 })],
    team_connections := [("t1", 5)],
    answers := [("q1", [("t1", { team_id := "t1", question_id := "q1", opt := 1,
                                 submitted_at := 500, ms_remaining := 5000 })])] }

/-- Like `c2Room` but still in `asking` with an uncredited roster. -/
def c4Room : Room :=
  { baseRoom with
    state := "asking", current_index := 0, question_end_at := 10000,
    teams := [("t1", { id := "t1", name := "Alpha", score := 0 })],
    team_connections := [("t1", 5)],
    answers := [("q1", [("t1", { team_id := "t1", question_id := "q1", opt := 1,
                                 submitted_at := 500, ms_remaining := 5000 })])] }

/-- A well-formed payload question used by the reload fixtures. -/
def goodQ1 : PayloadQuestion :=
  { qid := none, qtext := some "Q", qoptions := some ["A", "B", "C", "D"],
    qanswer := some 1, qtimeLimit := none, qimageUrl := none }

/-- A well-formed catalog row (id 1). -/
def goodRow1 : QuizRow :=
  { id := 1, title := "T1", data_json := some { ptitle := some "Tone", pquestions := some [goodQ1] } }

/-- A malformed catalog row: its `data_json` fails to decode. -/
def badRow : QuizRow := { id := 2, title := "bad", data_json := none }

/-- A second well-formed catalog row (id 3), after the malformed one. -/
def goodRow3 : QuizRow :=
  { id := 3, title := "T3", data_json := some { ptitle := none, pquestions := some [goodQ1] } }

section DictLemmas

variable {K V : Type} [DecidableEq K]

theorem dictLookup_append (l₁ l₂ : List (K × V)) (k : K) :
    dictLookup (l₁ ++ l₂) k =
      match dictLookup l₁ k with
      | some v => some v
      | none => dictLookup l₂ k := by
  induction l₁ with
  | nil => simp [dictLookup]
  | cons p rest ih =>
    by_cases h : p.1 = k <;> simp [dictLookup, h, ih]

theorem dictLookup_dictSet (m : List (K × V)) (k k' : K) (v : V) :
    dictLookup (dictSet m k v) k' = if k = k' then some v else dictLookup m k' := by
  induction m with
  | nil => by_cases h : k = k' <;> simp [dictSet, dictLookup, h]
  | cons p rest ih =>
    obtain ⟨pk, pv⟩ := p
    by_cases h1 : pk = k
    · subst h1
      by_cases h2 : pk = k' <;> simp [dictSet, dictLookup, h2]
    · by_cases h2 : pk = k'
      · subst h2
        have hkk' : ¬ k = pk := fun h => h1 h.symm
        simp [dictSet, dictLookup, h1, hkk']
      · simp [dictSet, dictLookup, h1, h2, ih]

theorem dictSetdefault_of_isSome (m : List (K × V)) (k : K) (v : V)
    (h : (dictLookup m k).isSome) : dictSetdefault m k v = m := by
  unfold dictSetdefault
  cases hl : dictLookup m k with
  | none => rw [hl] at h; simp at h
  | some w => rfl

theorem dictLookup_dictSetdefault (m : List (K × V)) (k k' : K) (v : V) :
    dictLookup (dictSetdefault m k v) k' =
      if k = k' then some ((dictLookup m k).getD v) else dictLookup m k' := by
  unfold dictSetdefault
  cases hl : dictLookup m k with
  | some w =>
    by_cases h : k = k'
    · subst h; rw [if_pos rfl, hl]; rfl
    · rw [if_neg h]
  | none =>
    rw [dictLookup_append]
    by_cases h : k = k'
    · subst h
      rw [hl, if_pos rfl]
      simp [dictLookup]
    · cases hl' : dictLookup m k' with
      | some w => simp [if_neg h]
      | none => simp [dictLookup, hl, hl', h]

theorem dictSet_of_lookup_none (m : List (K × V)) (k : K) (v : V)
    (h : dictLookup m k = none) : dictSet m k v = m ++ [(k, v)] := by
  induction m with
  | nil => rfl
  | cons p rest ih =>
    by_cases h1 : p.1 = k
    · rw [dictLookup, if_pos h1] at h; exact absurd h (by simp)
    · rw [dictLookup, if_neg h1] at h
      simp [dictSet, h1, ih h]

theorem dictLookup_dictErase (m : List (K × V)) (k k' : K) :
    dictLookup (dictErase m k) k' = if k' = k then none else dictLookup m k' := by
  induction m with
  | nil => by_cases h : k' = k <;> simp [dictErase, dictLookup, h]
  | cons p rest ih =>
    obtain ⟨pk, pv⟩ := p
    by_cases h1 : pk = k
    · subst h1
      have hf : dictErase ((pk, pv) :: rest) pk = dictErase rest pk := by
        simp [dictErase, List.filter_cons]
      rw [hf, ih]
      by_cases h2 : k' = pk
      · simp [h2]
      · rw [if_neg h2, if_neg h2, dictLookup, if_neg (fun h => h2 h.symm)]
    · have hf : dictErase ((pk, pv) :: rest) k = (pk, pv) :: dictErase rest k := by
        simp [dictErase, List.filter_cons, h1]
      rw [hf]
      by_cases h2 : pk = k'
      · subst h2
        rw [dictLookup, if_pos rfl, if_neg (fun h => h1 h), dictLookup, if_pos rfl]
      · rw [dictLookup, if_neg h2, ih, dictLookup, if_neg h2]

theorem dictLookup_eq_none_of_not_mem_keys (m : List (K × V)) (k : K)
    (h : k ∉ m.map Prod.fst) : dictLookup m k = none := by
  induction m with
  | nil => rfl
  | cons p rest ih =>
    simp only [List.map_cons, List.mem_cons] at h
    push_neg at h
    rw [dictLookup, if_neg (fun he => h.1 he.symm)]
    exact ih h.2

end DictLemmas


/-! ## Scoring function lemmas and claim C5 -/

theorem score_answer_true_eq (t r : Int) :
    score_answer true t r = 50 + 50 * max 0 (min (max 1 t) r) / max 1 t := by
  have hT : (0 : Int) < max 1 t := lt_of_lt_of_le one_pos (le_max_left _ _)
  have hTQ : (0 : ℚ) < ((max 1 t : Int) : ℚ) := by exact_mod_cast hT
  have hclamp : max 0 (min 1 ((r : ℚ) / ((max 1 t : Int) : ℚ)))
      = ((max 0 (min (max 1 t) r) : Int) : ℚ) / ((max 1 t : Int) : ℚ) := by
    conv_lhs => rw [show (1 : ℚ) = ((max 1 t : Int) : ℚ) / ((max 1 t : Int) : ℚ) by
          rw [div_self (ne_of_gt hTQ)]]
    rw [min_div_div_right (le_of_lt hTQ), show (0 : ℚ) = (0 : ℚ) / ((max 1 t : Int) : ℚ) by
          rw [zero_div], max_div_div_right (le_of_lt hTQ)]
    push_cast
    rfl
  have hTnat : (((max 1 t : Int).toNat : ℕ) : ℚ) = ((max 1 t : Int) : ℚ) := by
    exact_mod_cast Int.toNat_of_nonneg (le_of_lt hT)
  rw [score_answer]
  simp only [Bool.true_eq_false, if_false, hclamp]
  have harg : (100 : ℚ) * ((1 : ℚ)/2 + (1 : ℚ)/2 *
      (((max 0 (min (max 1 t) r) : Int) : ℚ) / ((max 1 t : Int) : ℚ)))
      = ((50 * (max 1 t) + 50 * max 0 (min (max 1 t) r) : Int) : ℚ)
        / (((max 1 t : Int).toNat : ℕ) : ℚ) := by
    rw [hTnat]
    push_cast
    field_simp
    ring
  rw [harg, Rat.floor_intCast_div_natCast, Int.toNat_of_nonneg (le_of_lt hT)]
  rw [add_comm (50 * (max 1 t)) (50 * max 0 (min (max 1 t) r)),
      Int.add_mul_ediv_right _ _ (ne_of_gt hT), add_comm]

/-- Claim C5: `score(false, t, r) = 0`; `score(true, t, r)` follows the
spec formula `floor(100 * (0.5 + 0.5 * clamp(r / max(1, t), 0, 1)))`; the
correct-answer result always lies in `[50, 100]`, equals 100 with full time
remaining (positive time limit), equals 50 at `remaining = 0`, and
`score(true, 20000, 5000) = 62`. -/
theorem claim_C5_scoring :
    (∀ t r : Int, score_answer false t r = 0) ∧
    (∀ t r : Int, score_answer true t r = specScore true t r) ∧
    (∀ t r : Int, 50 ≤ score_answer true t r ∧ score_answer true t r ≤ 100) ∧
    (∀ t : Int, 1 ≤ t → score_answer true t t = 100) ∧
    (∀ t : Int, score_answer true t 0 = 50) ∧
    score_answer true 20000 5000 = 62 := by
  refine ⟨fun t r => rfl, fun t r => rfl, fun t r => ?_, fun t ht => ?_, fun t => ?_, ?_⟩
  · have hT : (0 : Int) < max 1 t := lt_of_lt_of_le one_pos (le_max_left _ _)
    rw [score_answer_true_eq]
    have hm0 : (0 : Int) ≤ max 0 (min (max 1 t) r) := le_max_left _ _
    have hmT : max 0 (min (max 1 t) r) ≤ max 1 t :=
      max_le (le_of_lt hT) (min_le_left _ _)
    constructor
    · have : (0 : Int) ≤ 50 * max 0 (min (max 1 t) r) / max 1 t :=
        Int.ediv_nonneg (by omega) (le_of_lt hT)
      omega
    · have : 50 * max 0 (min (max 1 t) r) / max 1 t ≤ 50 :=
        Int.ediv_le_of_le_mul hT (by omega)
      omega
  · rw [score_answer_true_eq, max_eq_right ht, min_self, max_eq_right (by omega : (0:Int) ≤ t)]
    rw [Int.mul_ediv_cancel _ (by omega : t ≠ 0)]
    norm_num
  · rw [score_answer_true_eq]
    rw [min_eq_right (by positivity : (0:Int) ≤ max 1 t), max_self]
    simp
  · rw [score_answer_true_eq]; decide

/-- Witness for claim C5 at the concrete input `t = 20000`: the positivity
hypothesis of the full-time conjunct holds and the score is 100. -/
theorem claim_C5_scoring_witness :
    (1 : Int) ≤ 20000 ∧ score_answer true 20000 20000 = 100 :=
  ⟨by decide, claim_C5_scoring.2.2.2.1 20000 (by decide)⟩


/-! ## Python list-index and histogram lemmas -/

theorem dictLookup_cons {K V : Type} [DecidableEq K] (x : K) (y : V) (l : List (K × V)) (k : K) :
    dictLookup ((x, y) :: l) k = if x = k then some y else dictLookup l k := rfl

theorem pyIdx_of_nonneg (len : Nat) (i : Int) (h0 : 0 ≤ i) (hlt : i < (len : Int)) :
    pyIdx len i = some i.toNat := by
  unfold pyIdx
  rw [if_pos h0, if_pos hlt]

theorem pyIdx_none_of_ge (len : Nat) (i : Int) (h0 : 0 ≤ i) (hge : (len : Int) ≤ i) :
    pyIdx len i = none := by
  unfold pyIdx
  rw [if_pos h0, if_neg (not_lt.mpr hge)]

theorem pyIdx_of_neg (len : Nat) (i : Int) (h0 : i < 0) (hge : 0 ≤ i + (len : Int)) :
    pyIdx len i = some (i + (len : Int)).toNat := by
  unfold pyIdx
  rw [if_neg (not_le.mpr h0), if_pos hge]

theorem getD_set_eq (l : List Int) (m n : Nat) (x : Int) :
    (l.set m x).getD n 0 = if m = n ∧ n < l.length then x else l.getD n 0 := by
  induction l generalizing m n with
  | nil => simp [List.set]
  | cons y ys ih =>
    cases m with
    | zero =>
      cases n with
      | zero => simp
      | succ n => simp
    | succ m =>
      cases n with
      | zero => simp
      | succ n => simpa [Nat.succ_lt_succ_iff] using ih m n

/-! ## Reveal-loop lemmas -/

theorem creditTeam_cons (pk : String) (pv : Team) (rest : List (String × Team))
    (k : String) (d : Int) :
    creditTeam ((pk, pv) :: rest) k d =
      (if pk = k then (pk, { pv with score := pv.score + d }) else (pk, pv)) :: creditTeam rest k d := by
  by_cases h : pk = k
  · rw [if_pos h]
    show (if pk = k then (pk, { pv with score := pv.score + d }) else (pk, pv)) :: creditTeam rest k d
        = (pk, { pv with score := pv.score + d }) :: creditTeam rest k d
    rw [if_pos h]
  · rw [if_neg h]
    show (if pk = k then (pk, { pv with score := pv.score + d }) else (pk, pv)) :: creditTeam rest k d
        = (pk, pv) :: creditTeam rest k d
    rw [if_neg h]

theorem dictLookup_creditTeam (teams : List (String × Team)) (k tid : String) (d : Int) :
    dictLookup (creditTeam teams k d) tid =
      if tid = k then (dictLookup teams k).map (fun t => { t with score := t.score + d })
      else dictLookup teams tid := by
  induction teams with
  | nil => by_cases h : tid = k <;> simp [creditTeam, dictLookup, h]
  | cons p rest ih =>
    obtain ⟨pk, pv⟩ := p
    rw [creditTeam_cons]
    by_cases h1 : pk = k
    · subst h1
      rw [if_pos rfl]
      by_cases h2 : pk = tid
      · subst h2
        rw [dictLookup_cons, if_pos rfl, if_pos rfl, dictLookup_cons, if_pos rfl]
        rfl
      · have htid' : ¬ tid = pk := fun h => h2 h.symm
        rw [dictLookup_cons, if_neg h2, ih, if_neg htid', if_neg htid',
          dictLookup_cons, if_neg h2]
    · rw [if_neg h1]
      by_cases h2 : pk = tid
      · subst h2
        have h3 : ¬ pk = k := h1
        rw [dictLookup_cons, if_pos rfl, if_neg h3, dictLookup_cons, if_pos rfl]
      · rw [dictLookup_cons, if_neg h2, ih]
        by_cases h3 : tid = k
        · rw [if_pos h3, if_pos h3, dictLookup_cons, if_neg (h3 ▸ h2)]
        · rw [if_neg h3, if_neg h3, dictLookup_cons, if_neg h2]

theorem sumDelta_eq_zero (qa tl : Int) (tid : String) (l : List Answer)
    (h : ∀ a ∈ l, a.team_id ≠ tid) : sumDelta qa tl tid l = 0 := by
  induction l with
  | nil => rfl
  | cons a rest ih =>
    rw [sumDelta, if_neg (fun hc => h a (List.mem_cons_self a rest) hc.1),
      ih (fun b hb => h b (List.mem_cons_of_mem a hb))]
    simp

theorem sumDelta_eq_claimDelta (qa tl : Int) (bucket : List (String × Answer)) (tid : String)
    (hwf : ∀ p ∈ bucket, p.2.team_id = p.1)
    (hnd : (bucket.map Prod.fst).Nodup) :
    sumDelta qa tl tid (dictValues bucket) = claimDelta qa tl bucket tid := by
  induction bucket with
  | nil => rfl
  | cons p rest ih =>
    obtain ⟨k, a⟩ := p
    have hak : a.team_id = k := hwf (k, a) (List.mem_cons_self _ _)
    have hnd' : (rest.map Prod.fst).Nodup := (List.nodup_cons.mp (by simpa using hnd)).2
    have hknotin : k ∉ rest.map Prod.fst := (List.nodup_cons.mp (by simpa using hnd)).1
    have hvals : dictValues ((k, a) :: rest) = a :: dictValues rest := rfl
    rw [hvals, sumDelta, claimDelta, dictLookup_cons]
    by_cases hk : k = tid
    · subst hk
      have hrest0 : sumDelta qa tl k (dictValues rest) = 0 := by
        apply sumDelta_eq_zero
        intro b hb
        obtain ⟨pp, hpp, hpb⟩ := List.mem_map.mp hb
        intro hbtid
        have hmk : pp.1 ∈ List.map Prod.fst rest := List.mem_map_of_mem Prod.fst hpp
        rw [← hwf pp (List.mem_cons_of_mem _ hpp), hpb, hbtid] at hmk
        exact hknotin hmk
      rw [hrest0, if_pos rfl]
      by_cases hqa : a.opt = qa
      · rw [if_pos ⟨hak, hqa⟩]
        simp [hqa]
      · rw [if_neg (fun hc => hqa hc.2)]
        simp [hqa]
    · rw [if_neg hk, if_neg (fun hc => hk (by rw [← hak]; exact hc.1))]
      rw [ih (fun p hp => hwf p (List.mem_cons_of_mem _ hp)) hnd', claimDelta]
      simp

theorem revealFold_spec (qa tl : Int) (l : List Answer) :
    ∀ (counts : List Int) (teams : List (String × Team)),
      counts.length = 4 →
      (∀ a ∈ l, 0 ≤ a.opt ∧ a.opt < 4) →
      ∃ counts' teams',
        revealFold qa tl l counts teams = some (counts', teams') ∧
        counts'.length = 4 ∧
        (∀ i : Nat, i < 4 →
          counts'.getD i 0 = counts.getD i 0 + (l.countP (fun a => a.opt = (i : Int)) : Int)) ∧
        (∀ tid, dictLookup teams' tid = (dictLookup teams tid).map
            (fun t => { t with score := t.score + sumDelta qa tl tid l })) := by
  induction l with
  | nil =>
    intro counts teams hc _
    refine ⟨counts, teams, rfl, hc, ?_, ?_⟩
    · intro i _
      simp
    · intro tid
      cases dictLookup teams tid <;> simp [sumDelta]
  | cons a rest ih =>
    intro counts teams hc hopt
    have ha := hopt a (List.mem_cons_self a rest)
    have hidx : pyIdx counts.length a.opt = some a.opt.toNat := by
      rw [hc]; exact pyIdx_of_nonneg 4 a.opt ha.1 ha.2
    have hincr : pyIncr counts a.opt
        = some (counts.set a.opt.toNat (counts.getD a.opt.toNat 0 + 1)) := by
      unfold pyIncr
      rw [hidx]
      rfl
    set counts1 := counts.set a.opt.toNat (counts.getD a.opt.toNat 0 + 1) with hc1def
    have hc1 : counts1.length = 4 := by rw [hc1def, List.length_set, hc]
    set teams1 :=
      (if a.opt = qa then
        match dictLookup teams a.team_id with
        | some _ => creditTeam teams a.team_id (score_answer true tl a.ms_remaining)
        | none => teams
      else teams) with ht1def
    have hfold : revealFold qa tl (a :: rest) counts teams = revealFold qa tl rest counts1 teams1 := by
      rw [revealFold, hincr]
    have hteams1 : ∀ tid, dictLookup teams1 tid = (dictLookup teams tid).map
        (fun t => { t with score := t.score +
          (if a.team_id = tid ∧ a.opt = qa then score_answer true tl a.ms_remaining else 0) }) := by
      intro tid
      rw [ht1def]
      by_cases hqa : a.opt = qa
      · rw [if_pos hqa]
        cases hf : dictLookup teams a.team_id with
        | some t0 =>
          rw [dictLookup_creditTeam]
          by_cases htid : tid = a.team_id
          · subst htid
            rw [if_pos rfl, if_pos ⟨rfl, hqa⟩]
          · rw [if_neg htid, if_neg (fun hc => htid hc.1.symm)]
            cases dictLookup teams tid <;> simp
        | none =>
          by_cases htid : tid = a.team_id
          · subst htid
            rw [hf]
            rfl
          · rw [if_neg (fun hc => htid hc.1.symm)]
            cases dictLookup teams tid <;> simp
      · rw [if_neg hqa, if_neg (fun hc => hqa hc.2)]
        cases dictLookup teams tid <;> simp
    obtain ⟨counts', teams', hrun, hlen, hcounts, hteams⟩ :=
      ih counts1 teams1 hc1 (fun b hb => hopt b (List.mem_cons_of_mem a hb))
    refine ⟨counts', teams', by rw [hfold, hrun], hlen, ?_, ?_⟩
    · intro i hi
      rw [hcounts i hi, hc1def, getD_set_eq, List.countP_cons]
      simp only [decide_eq_true_eq]
      push_cast
      by_cases hoi : a.opt = (i : Int)
      · have hnat : a.opt.toNat = i := by omega
        rw [if_pos ⟨hnat, by omega⟩, if_pos hoi, hnat]
        ring
      · have hnot : ¬ (a.opt.toNat = i ∧ i < counts.length) := by
          rintro ⟨h1, _⟩
          exact hoi (by omega)
        rw [if_neg hnot, if_neg hoi]
        ring
    · intro tid
      rw [hteams tid, hteams1 tid]
      cases dictLookup teams tid <;> simp [sumDelta, add_assoc]

/-! ## Claims C1 and C6: the team-answer branch -/

theorem ws_team_answer_already_answered (quizzes : List (Int × Quiz)) (room : Room) (wsId : Nat)
    (opt now : Int) (quiz : Quiz) (q : Question) (tid : String) (a₀ : Answer)
    (hquiz : resolveQuizTruthy quizzes room.quiz_id = some quiz)
    (hidx : 0 ≤ room.current_index)
    (hq : pyGet quiz.questions room.current_index = some q)
    (htime : ¬ (now > room.question_end_at ∨ room.state ≠ "asking"))
    (hteam : findTeamByConn room.team_connections wsId = some tid)
    (hdup : dictLookup ((dictLookup room.answers q.id).getD []) tid = some a₀) :
    ws_team_answer quizzes room wsId opt now = (room, .rejected "already answered") := by
  obtain ⟨b, hb⟩ : ∃ b, dictLookup room.answers q.id = some b := by
    cases hl : dictLookup room.answers q.id with
    | none => rw [hl] at hdup; simp [dictLookup] at hdup
    | some b => exact ⟨b, rfl⟩
  rw [hb] at hdup
  simp only [Option.getD_some] at hdup
  unfold ws_team_answer
  rw [hquiz]
  simp only [if_neg (not_lt.mpr hidx), hq]
  rw [if_neg htime, hteam]
  simp only [dictSetdefault_of_isSome _ _ _ (by rw [hb]; rfl), hb, Option.getD_some,
    hdup, Option.isSome_some, if_pos]

theorem ws_team_answer_preserves_stored (quizzes : List (Int × Quiz)) (room : Room) (wsId : Nat)
    (opt now : Int) (qk tk : String) (a : Answer)
    (hstored : storedAnswer room qk tk = some a) :
    storedAnswer (ws_team_answer quizzes room wsId opt now).1 qk tk = some a := by
  obtain ⟨b, hb, hbt⟩ : ∃ b, dictLookup room.answers qk = some b ∧ dictLookup b tk = some a := by
    unfold storedAnswer at hstored
    cases hl : dictLookup room.answers qk with
    | none => rw [hl] at hstored; simp at hstored
    | some b => rw [hl] at hstored; simp at hstored; exact ⟨b, rfl, hstored⟩
  cases hr : resolveQuizTruthy quizzes room.quiz_id with
  | none =>
    simp only [ws_team_answer, hr]
    simpa [storedAnswer, hb] using hbt
  | some quiz =>
    by_cases hlt : room.current_index < 0
    · simp only [ws_team_answer, hr, if_pos hlt]
      simpa [storedAnswer, hb] using hbt
    · cases hq : pyGet quiz.questions room.current_index with
      | none =>
        simp only [ws_team_answer, hr, if_neg hlt, hq]
        simpa [storedAnswer, hb] using hbt
      | some q =>
        by_cases hlate : now > room.question_end_at ∨ room.state ≠ "asking"
        · simp only [ws_team_answer, hr, if_neg hlt, hq, if_pos hlate]
          simpa [storedAnswer, hb] using hbt
        · cases ht : findTeamByConn room.team_connections wsId with
          | none =>
            simp only [ws_team_answer, hr, if_neg hlt, hq, if_neg hlate, ht]
            simpa [storedAnswer, hb] using hbt
          | some tid =>
            by_cases hmem : (dictLookup ((dictLookup (dictSetdefault room.answers q.id
                ([] : List (String × Answer))) q.id).getD []) tid).isSome = true
            · simp only [ws_team_answer, hr, if_neg hlt, hq, if_neg hlate, ht, if_pos hmem]
              simp only [storedAnswer, dictLookup_dictSetdefault]
              by_cases hqk : q.id = qk
              · subst hqk
                rw [if_pos rfl, hb]
                simpa using hbt
              · rw [if_neg hqk, hb]
                simpa using hbt
            · simp only [ws_team_answer, hr, if_neg hlt, hq, if_neg hlate, ht, if_neg hmem]
              have hbkt : (dictLookup (dictSetdefault room.answers q.id
                  ([] : List (String × Answer))) q.id) = some ((dictLookup room.answers q.id).getD []) := by
                rw [dictLookup_dictSetdefault, if_pos rfl]
              simp only [storedAnswer, dictLookup_dictSet]
              by_cases hqk : q.id = qk
              · subst hqk
                rw [if_pos rfl]
                rw [hbkt, hb] at hmem ⊢
                simp only [Option.getD_some] at hmem ⊢
                rw [Option.some_bind, dictLookup_dictSet]
                have htk : ¬ tid = tk := by
                  intro he
                  subst he
                  rw [hbt] at hmem
                  simp at hmem
                rw [if_neg htk]
                exact hbt
              · rw [if_neg hqk, dictLookup_dictSetdefault, if_neg hqk, hb]
                simpa using hbt

/-- Claim C1: exactly-once answering.  First conjunct: a `team:answer` from
a team whose answer is already in the current question's bucket is rejected
with reason "already answered" and the room (in particular the bucket) is
unchanged.  Second conjunct: no `team:answer` message ever overwrites a
stored Answer, so at most one Answer is ever stored per
(team_id, question_id) pair and the bucket retains only the first. -/
theorem claim_C1_exactly_once :
    (∀ (quizzes : List (Int × Quiz)) (room : Room) (wsId : Nat) (opt now : Int)
       (quiz : Quiz) (q : Question) (tid : String) (a₀ : Answer),
       resolveQuizTruthy quizzes room.quiz_id = some quiz →
       0 ≤ room.current_index →
       pyGet quiz.questions room.current_index = some q →
       ¬ (now > room.question_end_at ∨ room.state ≠ "asking") →
       findTeamByConn room.team_connections wsId = some tid →
       dictLookup ((dictLookup room.answers q.id).getD []) tid = some a₀ →
       ws_team_answer quizzes room wsId opt now = (room, .rejected "already answered")) ∧
    (∀ (quizzes : List (Int × Quiz)) (room : Room) (wsId : Nat) (opt now : Int)
       (qk tk : String) (a : Answer),
       storedAnswer room qk tk = some a →
       storedAnswer (ws_team_answer quizzes room wsId opt now).1 qk tk = some a) :=
  ⟨fun quizzes room wsId opt now quiz q tid a₀ h1 h2 h3 h4 h5 h6 =>
      ws_team_answer_already_answered quizzes room wsId opt now quiz q tid a₀ h1 h2 h3 h4 h5 h6,
   fun quizzes room wsId opt now qk tk a h =>
      ws_team_answer_preserves_stored quizzes room wsId opt now qk tk a h⟩

/-- A room where team `t1` (connection 5) has already answered question
`q1` of the demo quiz, which is still being asked. -/
def c1Room : Room :=
  { baseRoom with
    state := "asking", current_index := 0, question_end_at := 10000,
    teams := [("t1", { id := "t1", name := "Alpha", score := 0 })],
    team_connections := [("t1", 5)],
    answers := [("q1", [("t1", { team_id := "t1", question_id := "q1", opt := 2,
                                 submitted_at := 500, ms_remaining := 9500 })])] }

/-- Witness for claim C1: in `c1Room`, a second submission by `t1` is
rejected with "already answered", the room is unchanged, and the stored
answer is still the first one. -/
theorem claim_C1_exactly_once_witness :
    ws_team_answer demoQuizzes c1Room 5 3 6000 = (c1Room, .rejected "already answered") ∧
    storedAnswer (ws_team_answer demoQuizzes c1Room 5 3 6000).1 "q1" "t1" =
      some { team_id := "t1", question_id := "q1", opt := 2,
             submitted_at := 500, ms_remaining := 9500 } :=
  ⟨claim_C1_exactly_once.1 demoQuizzes c1Room 5 3 6000 demoQuiz qA "t1"
      { team_id := "t1", question_id := "q1", opt := 2, submitted_at := 500, ms_remaining := 9500 }
      (by decide) (by decide) (by decide) (by decide) (by decide) (by decide),
   claim_C1_exactly_once.2 demoQuizzes c1Room 5 3 6000 "q1" "t1"
      { team_id := "t1", question_id := "q1", opt := 2, submitted_at := 500, ms_remaining := 9500 }
      (by decide)⟩

/-- Claim C6: late rejection.  With a quiz and a question selected, a
`team:answer` that arrives after `question_end_at` or while the room is not
in `asking` is rejected with reason "late" and the room — in particular the
current question's answer bucket — is unchanged. -/
theorem claim_C6_late_rejection (quizzes : List (Int × Quiz)) (room : Room) (wsId : Nat)
    (opt now : Int) (quiz : Quiz) (q : Question)
    (hquiz : resolveQuizTruthy quizzes room.quiz_id = some quiz)
    (hidx : 0 ≤ room.current_index)
    (hq : pyGet quiz.questions room.current_index = some q)
    (hlate : now > room.question_end_at ∨ room.state ≠ "asking") :
    ws_team_answer quizzes room wsId opt now = (room, .rejected "late") := by
  unfold ws_team_answer
  rw [hquiz]
  simp only [if_neg (not_lt.mpr hidx), hq]
  rw [if_pos hlate]

/-- A room whose current question deadline (10000 ms) has passed. -/
def c6Room : Room :=
  { baseRoom with
    state := "asking", current_index := 0, question_end_at := 10000,
    teams := [("t1", { id := "t1", name := "Alpha", score := 0 })],
    team_connections := [("t1", 5)] }

/-- Witness for claim C6: a submission at `now = 25000 > 10000` is rejected
as late and the room is unchanged. -/
theorem claim_C6_late_rejection_witness :
    ws_team_answer demoQuizzes c6Room 5 1 25000 = (c6Room, .rejected "late") :=
  claim_C6_late_rejection demoQuizzes c6Room 5 1 25000 demoQuiz qA
    (by decide) (by decide) (by decide) (Or.inl (by decide))


theorem tally_append_one (l : List Answer) (a : Answer) :
    ∀ counts : List Int, tally (l ++ [a]) counts =
      match tally l counts with
      | none => none
      | some c => pyIncr c a.opt := by
  induction l with
  | nil =>
    intro counts
    rw [List.nil_append, tally]
    cases h : pyIncr counts a.opt with
    | none => simp [tally, h]
    | some c => simp [tally, h]
  | cons b rest ih =>
    intro counts
    rw [List.cons_append, tally, tally]
    cases h : pyIncr counts b.opt with
    | none => simp
    | some c => exact ih c

theorem tally_some_of_good (l : List Answer) :
    ∀ counts : List Int, counts.length = 4 →
      (∀ a ∈ l, 0 ≤ a.opt ∧ a.opt < 4) →
      ∃ counts', tally l counts = some counts' ∧ counts'.length = 4 := by
  induction l with
  | nil => intro counts hc _; exact ⟨counts, rfl, hc⟩
  | cons a rest ih =>
    intro counts hc hopt
    have ha := hopt a (List.mem_cons_self a rest)
    have hincr : pyIncr counts a.opt
        = some (counts.set a.opt.toNat (counts.getD a.opt.toNat 0 + 1)) := by
      unfold pyIncr
      rw [hc, pyIdx_of_nonneg 4 a.opt ha.1 ha.2]
      rfl
    obtain ⟨counts', hrun, hlen⟩ := ih (counts.set a.opt.toNat (counts.getD a.opt.toNat 0 + 1))
      (by rw [List.length_set, hc]) (fun b hb => hopt b (List.mem_cons_of_mem a hb))
    exact ⟨counts', by rw [tally, hincr]; exact hrun, hlen⟩

theorem tally_none_of_bad (l : List Answer) :
    ∀ counts : List Int, counts.length = 4 →
      (∃ a ∈ l, pyIdx 4 a.opt = none) →
      tally l counts = none := by
  induction l with
  | nil => intro counts _ h; simp at h
  | cons b rest ih =>
    intro counts hc h
    rw [tally]
    cases hincr : pyIncr counts b.opt with
    | none => rfl
    | some c =>
      obtain ⟨a, ha, hbad⟩ := h
      rcases List.mem_cons.mp ha with rfl | hmem
      · exfalso
        unfold pyIncr at hincr
        rw [hc, hbad] at hincr
        simp at hincr
      · have hlen : c.length = 4 := by
          unfold pyIncr at hincr
          cases hidx : pyIdx counts.length b.opt with
          | none => rw [hidx] at hincr; simp at hincr
          | some n =>
            rw [hidx] at hincr
            simp at hincr
            rw [← hincr, List.length_set, hc]
        exact ih c hlen ⟨a, hmem, hbad⟩

theorem revealFold_none_of_bad (qa tl : Int) (l : List Answer) :
    ∀ (counts : List Int) (teams : List (String × Team)), counts.length = 4 →
      (∃ a ∈ l, pyIdx 4 a.opt = none) →
      revealFold qa tl l counts teams = none := by
  induction l with
  | nil => intro counts teams _ h; simp at h
  | cons b rest ih =>
    intro counts teams hc h
    rw [revealFold]
    cases hincr : pyIncr counts b.opt with
    | none => rfl
    | some c =>
      obtain ⟨a, ha, hbad⟩ := h
      rcases List.mem_cons.mp ha with rfl | hmem
      · exfalso
        unfold pyIncr at hincr
        rw [hc, hbad] at hincr
        simp at hincr
      · have hlen : c.length = 4 := by
          unfold pyIncr at hincr
          cases hidx : pyIdx counts.length b.opt with
          | none => rw [hidx] at hincr; simp at hincr
          | some n =>
            rw [hidx] at hincr
            simp at hincr
            rw [← hincr, List.length_set, hc]
        exact ih c _ hlen ⟨a, hmem, hbad⟩

theorem resolveQuizTruthy_bind (quizzes : List (Int × Quiz)) (quiz_id : Option Int)
    (quiz : Quiz) (h : resolveQuizTruthy quizzes quiz_id = some quiz) :
    quiz_id.bind (fun qid => dictLookup quizzes qid) = some quiz := by
  cases quiz_id with
  | none => exact absurd h (by simp [resolveQuizTruthy])
  | some qid =>
    simp only [resolveQuizTruthy] at h
    by_cases h0 : qid = 0
    · rw [if_pos h0] at h
      exact absurd h (by simp)
    · rw [if_neg h0] at h
      simpa using h

theorem pyGet_neg_one {α : Type} (l : List α) (x : α) (h : l.getLast? = some x) :
    pyGet l (-1) = some x := by
  have hne : l ≠ [] := by
    intro he
    rw [he] at h
    simp at h
  have hlen : 1 ≤ l.length := List.length_pos.mpr hne
  unfold pyGet
  rw [pyIdx_of_neg l.length (-1) (by norm_num) (by omega)]
  have : ((-1 : Int) + l.length).toNat = l.length - 1 := by omega
  rw [this, Option.some_bind, List.get?_eq_getElem?, ← List.getLast?_eq_getElem?]
  exact h



theorem ws_host_reveal_spec (quizzes : List (Int × Quiz)) (room : Room)
    (qid : Int) (quiz : Quiz) (q : Question)
    (hqid : room.quiz_id = some qid)
    (hquiz : dictLookup quizzes qid = some quiz)
    (hq : pyGet quiz.questions room.current_index = some q)
    (hopt : ∀ p ∈ (dictLookup room.answers q.id).getD [], 0 ≤ p.2.opt ∧ p.2.opt < 4) :
    ∃ counts teams',
      ws_host_reveal quizzes room =
        .ok { room with state := "revealed", teams := teams' } counts q.answer
          ((sortTeamsDesc (dictValues teams')).map (fun t => (t.id, t.name, t.score))) ∧
      counts.length = 4 ∧
      (∀ i : Nat, i < 4 →
        counts.getD i 0 =
          (((dictValues ((dictLookup room.answers q.id).getD [])).countP
            (fun a => a.opt = (i : Int))) : Int)) ∧
      (∀ tid, dictLookup teams' tid = (dictLookup room.teams tid).map
          (fun t => { t with score := (t.score +
            sumDelta q.answer q.timeLimit tid
              (dictValues ((dictLookup room.answers q.id).getD []))) })) := by
  have hoptv : ∀ a ∈ dictValues ((dictLookup room.answers q.id).getD []),
      0 ≤ a.opt ∧ a.opt < 4 := by
    intro a ha
    obtain ⟨p, hp, rfl⟩ := List.mem_map.mp ha
    exact hopt p hp
  obtain ⟨counts, teams', hrun, hlen, hcounts, hteams⟩ :=
    revealFold_spec q.answer q.timeLimit (dictValues ((dictLookup room.answers q.id).getD []))
      [0, 0, 0, 0] room.teams rfl hoptv
  refine ⟨counts, teams', ?_, hlen, ?_, hteams⟩
  · simp only [ws_host_reveal, hqid, Option.some_bind, hquiz, hq]
    rw [hrun]
  · intro i hi
    rw [hcounts i hi]
    have hz : ([0, 0, 0, 0] : List Int).getD i 0 = 0 := by
      interval_cases i <;> rfl
    rw [hz, zero_add]

/-- Claim C4: reveal tally correctness.  For a room whose current question
and bucket are well-formed (options in `[0,4)`, bucket keyed by the
answering team, teams present in the roster, one entry per team), one
`host:reveal` broadcasts `counts` where `counts[i]` is the number of stored
Answers with option `i`, and each rostered team's score grows by exactly
`score_answer(true, q.timeLimit, a.ms_remaining)` when its answer matches
`q.answer` and by 0 otherwise. -/
theorem claim_C4_reveal_tally (quizzes : List (Int × Quiz)) (room : Room)
    (qid : Int) (quiz : Quiz) (q : Question)
    (hqid : room.quiz_id = some qid)
    (hquiz : dictLookup quizzes qid = some quiz)
    (hq : pyGet quiz.questions room.current_index = some q)
    (hstate : room.state = "asking" ∨ room.state = "locked")
    (hopt : ∀ p ∈ (dictLookup room.answers q.id).getD [], 0 ≤ p.2.opt ∧ p.2.opt < 4)
    (hwf : ∀ p ∈ (dictLookup room.answers q.id).getD [], p.2.team_id = p.1)
    (hroster : ∀ p ∈ (dictLookup room.answers q.id).getD [],
      (dictLookup room.teams p.1).isSome)
    (hnd : (((dictLookup room.answers q.id).getD []).map Prod.fst).Nodup) :
    ∃ counts teams',
      ws_host_reveal quizzes room =
        .ok { room with state := "revealed", teams := teams' } counts q.answer
          ((sortTeamsDesc (dictValues teams')).map (fun t => (t.id, t.name, t.score))) ∧
      (∀ i : Nat, i < 4 →
        counts.getD i 0 =
          (((dictValues ((dictLookup room.answers q.id).getD [])).countP
            (fun a => a.opt = (i : Int))) : Int)) ∧
      (∀ tid t, dictLookup room.teams tid = some t →
        dictLookup teams' tid = some
          { t with score := (t.score +
              claimDelta q.answer q.timeLimit ((dictLookup room.answers q.id).getD []) tid) }) := by
  obtain ⟨counts, teams', hrdo, hlen, hcounts, hteams⟩ :=
    ws_host_reveal_spec quizzes room qid quiz q hqid hquiz hq hopt
  refine ⟨counts, teams', hrdo, hcounts, ?_⟩
  intro tid t ht
  rw [hteams tid, ht, Option.map_some', sumDelta_eq_claimDelta q.answer q.timeLimit _ tid hwf hnd]



/-- Claim C2, amended: the gateway does not guard reveal.  Even when the
room is already `revealed` or `finished` for the current question, a further
`host:reveal` succeeds, re-tallies the same bucket and credits every
correctly-answering team's score again (no no-op, no error). -/
theorem claim_C2_reveal_unguarded (quizzes : List (Int × Quiz)) (room : Room)
    (qid : Int) (quiz : Quiz) (q : Question)
    (hqid : room.quiz_id = some qid)
    (hquiz : dictLookup quizzes qid = some quiz)
    (hq : pyGet quiz.questions room.current_index = some q)
    (hstate : room.state = "revealed" ∨ room.state = "finished")
    (hopt : ∀ p ∈ (dictLookup room.answers q.id).getD [], 0 ≤ p.2.opt ∧ p.2.opt < 4)
    (hwf : ∀ p ∈ (dictLookup room.answers q.id).getD [], p.2.team_id = p.1)
    (hnd : (((dictLookup room.answers q.id).getD []).map Prod.fst).Nodup) :
    ∃ counts teams',
      ws_host_reveal quizzes room =
        .ok { room with state := "revealed", teams := teams' } counts q.answer
          ((sortTeamsDesc (dictValues teams')).map (fun t => (t.id, t.name, t.score))) ∧
      (∀ tid t, dictLookup room.teams tid = some t →
        dictLookup teams' tid = some
          { t with score := (t.score +
              claimDelta q.answer q.timeLimit ((dictLookup room.answers q.id).getD []) tid) }) := by
  obtain ⟨counts, teams', hrdo, hlen, hcounts, hteams⟩ :=
    ws_host_reveal_spec quizzes room qid quiz q hqid hquiz hq hopt
  refine ⟨counts, teams', hrdo, ?_⟩
  intro tid t ht
  rw [hteams tid, ht, Option.map_some',
    sumDelta_eq_claimDelta q.answer q.timeLimit _ tid hwf hnd]

/-- Counterexample to claim C2 as stated: `c2Room` is already `revealed`
with team `t1` at score 62, yet a further `host:reveal` succeeds and leaves
`t1` at 124 — the score was credited again. -/
theorem claim_C2_counterexample :
    c2Room.state = "revealed" ∧
    (dictLookup c2Room.teams "t1").map Team.score = some 62 ∧
    revealTeamScore (ws_host_reveal demoQuizzes c2Room) "t1" = some 124 := by
  refine ⟨rfl, rfl, ?_⟩
  have h62 : score_answer true 20000 5000 = 62 := by
    rw [score_answer_true_eq]
    decide
  simp [ws_host_reveal, revealTeamScore, c2Room, baseRoom, demoQuizzes, demoQuiz, qA,
    dictLookup, dictValues, revealFold, pyIncr, pyIdx, pyGet, creditTeam, h62]

/-- Claim C9: `host:lock` and `host:reveal` do not require an active
question.  In the lobby (`current_index = -1`) with a non-empty quiz set,
both evaluate `quiz.questions[-1]`, which under Python negative indexing is
the quiz's last question, so lock locks it and reveal tallies and reveals
it instead of failing with an explicit error. -/
theorem claim_C9_lobby_reveals_last (quizzes : List (Int × Quiz)) (room : Room)
    (qid : Int) (quiz : Quiz) (qlast : Question)
    (hqid : room.quiz_id = some qid)
    (hquiz : dictLookup quizzes qid = some quiz)
    (hstate : room.state = "lobby")
    (hidx : room.current_index = -1)
    (hlast : quiz.questions.getLast? = some qlast)
    (hnobucket : dictLookup room.answers qlast.id = none) :
    ws_host_lock quizzes room = .ok { room with state := "locked" } qlast.id ∧
    ws_host_reveal quizzes room =
      .ok { room with state := "revealed" } [0, 0, 0, 0] qlast.answer
        ((sortTeamsDesc (dictValues room.teams)).map (fun t => (t.id, t.name, t.score))) := by
  have hpg : pyGet quiz.questions room.current_index = some qlast := by
    rw [hidx]
    exact pyGet_neg_one quiz.questions qlast hlast
  constructor
  · simp only [ws_host_lock, hqid, Option.some_bind, hquiz, hpg]
  · simp only [ws_host_reveal, hqid, Option.some_bind, hquiz, hpg, hnobucket,
      Option.getD_none]
    rfl



theorem ws_team_answer_accepts (quizzes : List (Int × Quiz)) (room : Room) (wsId : Nat)
    (opt now : Int) (quiz : Quiz) (q : Question) (tid : String)
    (hquiz : resolveQuizTruthy quizzes room.quiz_id = some quiz)
    (hidx : 0 ≤ room.current_index)
    (hq : pyGet quiz.questions room.current_index = some q)
    (htime : ¬ (now > room.question_end_at ∨ room.state ≠ "asking"))
    (hteam : findTeamByConn room.team_connections wsId = some tid)
    (hnew : dictLookup ((dictLookup room.answers q.id).getD []) tid = none) :
    ws_team_answer quizzes room wsId opt now =
      ({ room with answers := (dictSet (dictSetdefault room.answers q.id []) q.id
          (dictSet ((dictLookup room.answers q.id).getD []) tid
            (mkAnswer tid q.id opt now (max 0 (room.question_end_at - now))))) },
       .accepted (max 0 (room.question_end_at - now))
         (tally (dictValues (dictSet ((dictLookup room.answers q.id).getD []) tid
            (mkAnswer tid q.id opt now (max 0 (room.question_end_at - now))))) [0, 0, 0, 0])) := by
  have hbridge : (dictLookup (dictSetdefault room.answers q.id
      ([] : List (String × Answer))) q.id).getD []
      = (dictLookup room.answers q.id).getD [] := by
    rw [dictLookup_dictSetdefault, if_pos rfl, Option.getD_some]
  unfold ws_team_answer
  rw [hquiz]
  simp only [if_neg (not_lt.mpr hidx), hq]
  rw [if_neg htime, hteam]
  simp only [hbridge, hnew, Option.isSome_none, Bool.false_eq_true, if_false]
  rfl

/-- Claim C10: `team:answer` stores `int(data["option"])` unvalidated.
First conjunct: an accepted answer with option ≥ 4 is stored and
acknowledged, but the 4-slot histogram recomputation raises `IndexError`
(no `answers:progress` push) and a subsequent `host:reveal` raises as well.
Second conjunct: an accepted answer with option in `[-4, -1]` silently
increments histogram slot `4 + option`. -/
theorem claim_C10_option_unvalidated :
    (∀ (quizzes : List (Int × Quiz)) (room : Room) (wsId : Nat) (opt now : Int)
       (quiz : Quiz) (q : Question) (tid : String),
       resolveQuizTruthy quizzes room.quiz_id = some quiz →
       0 ≤ room.current_index →
       pyGet quiz.questions room.current_index = some q →
       ¬ (now > room.question_end_at ∨ room.state ≠ "asking") →
       findTeamByConn room.team_connections wsId = some tid →
       dictLookup ((dictLookup room.answers q.id).getD []) tid = none →
       4 ≤ opt →
       (ws_team_answer quizzes room wsId opt now).2
           = .accepted (max 0 (room.question_end_at - now)) none ∧
         ws_host_reveal quizzes (ws_team_answer quizzes room wsId opt now).1 = .raised) ∧
    (∀ (quizzes : List (Int × Quiz)) (room : Room) (wsId : Nat) (opt now : Int)
       (quiz : Quiz) (q : Question) (tid : String),
       resolveQuizTruthy quizzes room.quiz_id = some quiz →
       0 ≤ room.current_index →
       pyGet quiz.questions room.current_index = some q →
       ¬ (now > room.question_end_at ∨ room.state ≠ "asking") →
       findTeamByConn room.team_connections wsId = some tid →
       dictLookup ((dictLookup room.answers q.id).getD []) tid = none →
       -4 ≤ opt → opt ≤ -1 →
       (∀ p ∈ (dictLookup room.answers q.id).getD [], 0 ≤ p.2.opt ∧ p.2.opt < 4) →
       ∃ counts0,
         tally (dictValues ((dictLookup room.answers q.id).getD [])) [0, 0, 0, 0]
             = some counts0 ∧
           (ws_team_answer quizzes room wsId opt now).2 =
             .accepted (max 0 (room.question_end_at - now))
               (some (counts0.set (opt + 4).toNat (counts0.getD (opt + 4).toNat 0 + 1)))) := by
  constructor
  · intro quizzes room wsId opt now quiz q tid hquiz hidx hq htime hteam hnew h4
    have hacc := ws_team_answer_accepts quizzes room wsId opt now quiz q tid
      hquiz hidx hq htime hteam hnew
    have hset : dictSet ((dictLookup room.answers q.id).getD []) tid
        (mkAnswer tid q.id opt now (max 0 (room.question_end_at - now)))
        = ((dictLookup room.answers q.id).getD []) ++
          [(tid, mkAnswer tid q.id opt now (max 0 (room.question_end_at - now)))] :=
      dictSet_of_lookup_none _ _ _ hnew
    have hbadidx : pyIdx 4 (mkAnswer tid q.id opt now
        (max 0 (room.question_end_at - now))).opt = none :=
      pyIdx_none_of_ge 4 opt (by omega) (by exact_mod_cast h4)
    have hmem : mkAnswer tid q.id opt now (max 0 (room.question_end_at - now))
        ∈ dictValues (dictSet ((dictLookup room.answers q.id).getD []) tid
            (mkAnswer tid q.id opt now (max 0 (room.question_end_at - now)))) := by
      rw [hset]
      unfold dictValues
      rw [List.map_append]
      exact List.mem_append_right _ (by simp)
    constructor
    · rw [hacc]
      show AnswerOutcome.accepted _ _ = _
      rw [tally_none_of_bad _ [0, 0, 0, 0] rfl ⟨_, hmem, hbadidx⟩]
    · rw [hacc]
      have hbind : room.quiz_id.bind (fun i => dictLookup quizzes i) = some quiz :=
        resolveQuizTruthy_bind quizzes room.quiz_id quiz hquiz
      have hrf := revealFold_none_of_bad q.answer q.timeLimit
        (dictValues (dictSet ((dictLookup room.answers q.id).getD []) tid
          (mkAnswer tid q.id opt now (max 0 (room.question_end_at - now)))))
        [0, 0, 0, 0] room.teams rfl ⟨_, hmem, hbadidx⟩
      simp only [ws_host_reveal, hbind, hq, dictLookup_dictSet, eq_self_iff_true,
        if_true, Option.getD_some, hrf]
  · intro quizzes room wsId opt now quiz q tid hquiz hidx hq htime hteam hnew hm4 hm1 hgood
    have hacc := ws_team_answer_accepts quizzes room wsId opt now quiz q tid
      hquiz hidx hq htime hteam hnew
    have hgoodv : ∀ a ∈ dictValues ((dictLookup room.answers q.id).getD []),
        0 ≤ a.opt ∧ a.opt < 4 := by
      intro a ha
      obtain ⟨p, hp, rfl⟩ := List.mem_map.mp ha
      exact hgood p hp
    obtain ⟨counts0, hrun, hlen⟩ :=
      tally_some_of_good (dictValues ((dictLookup room.answers q.id).getD []))
        [0, 0, 0, 0] rfl hgoodv
    refine ⟨counts0, hrun, ?_⟩
    rw [hacc]
    have hset : dictSet ((dictLookup room.answers q.id).getD []) tid
        (mkAnswer tid q.id opt now (max 0 (room.question_end_at - now)))
        = ((dictLookup room.answers q.id).getD []) ++
          [(tid, mkAnswer tid q.id opt now (max 0 (room.question_end_at - now)))] :=
      dictSet_of_lookup_none _ _ _ hnew
    show AnswerOutcome.accepted _ _ = _
    rw [hset]
    rw [show dictValues (((dictLookup room.answers q.id).getD []) ++
          [(tid, mkAnswer tid q.id opt now (max 0 (room.question_end_at - now)))])
        = dictValues ((dictLookup room.answers q.id).getD []) ++
          [mkAnswer tid q.id opt now (max 0 (room.question_end_at - now))] from
        List.map_append _ _ _]
    rw [tally_append_one _ _ _, hrun]
    show AnswerOutcome.accepted _ (pyIncr counts0
      (mkAnswer tid q.id opt now (max 0 (room.question_end_at - now))).opt) = _
    unfold pyIncr
    rw [hlen]
    rw [show (mkAnswer tid q.id opt now (max 0 (room.question_end_at - now))).opt = opt from rfl]
    rw [pyIdx_of_neg 4 opt (by omega) (by omega)]
    rfl



/-! ## Claim C3: out-of-range startQuestion -/

/-- Claim C3, amended: a `host:start_question` whose resulting index falls
outside `[0, len(questions))` is rejected with "no more questions" and
leaves the room state unchanged — but `current_index` was already mutated
(incremented, or set to the requested index) before the bounds check, so it
keeps the out-of-range value instead of being unchanged. -/
theorem claim_C3_start_question_out_of_range (quizzes : List (Int × Quiz)) (room : Room)
    (idx : Option Int) (tl : Option Int) (now : Int) (quiz : Quiz)
    (hquiz : resolveQuizTruthy quizzes room.quiz_id = some quiz)
    (hout : idx.getD (room.current_index + 1) < 0 ∨
            (quiz.questions.length : Int) ≤ idx.getD (room.current_index + 1)) :
    ws_host_start_question quizzes room idx tl now =
      ({ room with current_index := idx.getD (room.current_index + 1) }, .errNoMore) := by
  unfold ws_host_start_question
  rw [hquiz]
  simp only [if_pos hout]

/-- Counterexample to claim C3 as stated: `startQuestion(index=5)` on the
3-question demo quiz in the lobby is rejected with "no more questions" and
leaves `state` unchanged, but `current_index` becomes 5 instead of staying
at its previous value -1. -/
theorem claim_C3_counterexample :
    (ws_host_start_question demoQuizzes baseRoom (some 5) none 1000).2 = .errNoMore ∧
    (ws_host_start_question demoQuizzes baseRoom (some 5) none 1000).1.current_index = 5 ∧
    baseRoom.current_index = -1 ∧
    (ws_host_start_question demoQuizzes baseRoom (some 5) none 1000).1.state = baseRoom.state := by
  decide

/-- Witness for the amended claim C3 at the same concrete input. -/
theorem claim_C3_start_question_out_of_range_witness :
    ws_host_start_question demoQuizzes baseRoom (some 5) none 1000 =
      ({ baseRoom with current_index := 5 }, .errNoMore) :=
  claim_C3_start_question_out_of_range demoQuizzes baseRoom (some 5) none 1000 demoQuiz
    (by decide) (Or.inr (by decide))

/-! ## Witnesses for the reveal claims -/

/-- Witness for claim C4 at `c4Room`: `t1` answered option 1 (correct, 5000
of 20000 ms left), so reveal yields counts `[0,1,0,0]`-shaped data and
credits 62. -/
theorem claim_C4_reveal_tally_witness :
    (c4Room.state = "asking" ∨ c4Room.state = "locked") ∧
    (∃ counts teams',
      ws_host_reveal demoQuizzes c4Room =
        .ok { c4Room with state := "revealed", teams := teams' } counts qA.answer
          ((sortTeamsDesc (dictValues teams')).map (fun t => (t.id, t.name, t.score))) ∧
      (∀ i : Nat, i < 4 →
        counts.getD i 0 =
          (((dictValues ((dictLookup c4Room.answers qA.id).getD [])).countP
            (fun a => a.opt = (i : Int))) : Int)) ∧
      (∀ tid t, dictLookup c4Room.teams tid = some t →
        dictLookup teams' tid = some
          { t with score := (t.score +
              claimDelta qA.answer qA.timeLimit ((dictLookup c4Room.answers qA.id).getD []) tid) })) :=
  ⟨Or.inl rfl,
   claim_C4_reveal_tally demoQuizzes c4Room 1 demoQuiz qA rfl (by decide) (by decide)
     (Or.inl rfl) (by decide) (by decide) (by decide) (by decide)⟩

/-- Witness for the amended claim C2 at `c2Room` (already revealed). -/
theorem claim_C2_reveal_unguarded_witness :
    (c2Room.state = "revealed" ∨ c2Room.state = "finished") ∧
    (∃ counts teams',
      ws_host_reveal demoQuizzes c2Room =
        .ok { c2Room with state := "revealed", teams := teams' } counts qA.answer
          ((sortTeamsDesc (dictValues teams')).map (fun t => (t.id, t.name, t.score))) ∧
      (∀ tid t, dictLookup c2Room.teams tid = some t →
        dictLookup teams' tid = some
          { t with score := (t.score +
              claimDelta qA.answer qA.timeLimit ((dictLookup c2Room.answers qA.id).getD []) tid) })) :=
  ⟨Or.inl rfl,
   claim_C2_reveal_unguarded demoQuizzes c2Room 1 demoQuiz qA rfl (by decide) (by decide)
     (Or.inl rfl) (by decide) (by decide) (by decide)⟩

/-- Witness for claim C9 at `baseRoom` (lobby, `current_index = -1`): lock
and reveal both act on `q3`, the demo quiz's final question. -/
theorem claim_C9_lobby_reveals_last_witness :
    ws_host_lock demoQuizzes baseRoom = .ok { baseRoom with state := "locked" } qC.id ∧
    ws_host_reveal demoQuizzes baseRoom =
      .ok { baseRoom with state := "revealed" } [0, 0, 0, 0] qC.answer
        ((sortTeamsDesc (dictValues baseRoom.teams)).map (fun t => (t.id, t.name, t.score))) :=
  claim_C9_lobby_reveals_last demoQuizzes baseRoom 1 demoQuiz qC rfl (by decide) rfl rfl
    (by decide) rfl

/-- Witness for claim C10 at `c6Room` before the deadline: option 5 is
accepted but the histogram raises (and reveal raises); option -1 is
accepted and increments slot 3. -/
theorem claim_C10_option_unvalidated_witness :
    ((ws_team_answer demoQuizzes c6Room 5 5 4000).2
        = .accepted (max 0 (c6Room.question_end_at - 4000)) none ∧
      ws_host_reveal demoQuizzes (ws_team_answer demoQuizzes c6Room 5 5 4000).1 = .raised) ∧
    (∃ counts0,
      tally (dictValues ((dictLookup c6Room.answers qA.id).getD [])) [0, 0, 0, 0]
          = some counts0 ∧
        (ws_team_answer demoQuizzes c6Room 5 (-1) 4000).2 =
          .accepted (max 0 (c6Room.question_end_at - 4000))
            (some (counts0.set ((-1 : Int) + 4).toNat (counts0.getD ((-1 : Int) + 4).toNat 0 + 1)))) :=
  ⟨claim_C10_option_unvalidated.1 demoQuizzes c6Room 5 5 4000 demoQuiz qA "t1"
      (by decide) (by decide) (by decide) (by decide) (by decide) (by decide) (by decide),
   claim_C10_option_unvalidated.2 demoQuizzes c6Room 5 (-1) 4000 demoQuiz qA "t1"
      (by decide) (by decide) (by decide) (by decide) (by decide) (by decide)
      (by decide) (by decide) (by decide)⟩


theorem loadQuizzesGo_append_bad (bad : QuizRow) (rest : List QuizRow)
    (hbad : parseRow bad = none) :
    ∀ (pre : List QuizRow) (acc : List (Int × Quiz)),
      (∀ r ∈ pre, (parseRow r).isSome) →
      loadQuizzesGo acc (pre ++ bad :: rest) = ((loadQuizzesGo acc pre).1, false) ∧
        (loadQuizzesGo acc pre).2 = true := by
  intro pre
  induction pre with
  | nil =>
    intro acc _
    constructor
    · simp only [List.nil_append, loadQuizzesGo, hbad]
    · rfl
  | cons r pre' ih =>
    intro acc hpre
    obtain ⟨quiz, hq⟩ := Option.isSome_iff_exists.mp (hpre r (List.mem_cons_self r pre'))
    simp only [List.cons_append, loadQuizzesGo, hq]
    exact ih (dictSet acc r.id quiz) (fun s hs => hpre s (List.mem_cons_of_mem r hs))

/-- Claim C7, amended: a malformed entry aborts `load_quizzes` at that
entry, but the old catalog was already cleared and the rows preceding the
malformed one were already inserted: the method raises (`false` flag) and
leaves the index holding exactly the quizzes of the well-formed prefix,
with every row after the malformed one unloaded. -/
theorem claim_C7_partial_catalog (pre : List QuizRow) (bad : QuizRow) (rest : List QuizRow)
    (hpre : ∀ r ∈ pre, (parseRow r).isSome)
    (hbad : parseRow bad = none) :
    load_quizzes (pre ++ bad :: rest) = ((load_quizzes pre).1, false) ∧
    (load_quizzes pre).2 = true :=
  loadQuizzesGo_append_bad bad rest hbad pre [] hpre

/-- Counterexample to claim C7 as stated: reloading
`[goodRow1, badRow, goodRow3]` fails (the malformed `badRow` raises), yet
the index is left neither empty (quiz 1 is present) nor complete modulo the
bad row (quiz 3 is absent): it holds exactly the well-formed prefix. -/
theorem claim_C7_counterexample :
    (load_quizzes [goodRow1, badRow, goodRow3]).2 = false ∧
    (load_quizzes [goodRow1, badRow, goodRow3]).1 ≠ [] ∧
    dictLookup (load_quizzes [goodRow1, badRow, goodRow3]).1 1 =
      some { id := 1, title := "Tone", questions :=
        [{ id := "q1", text := "Q", options := ["A", "B", "C", "D"], answer := 1,
           timeLimit := 20000, imageUrl := none }] } ∧
    dictLookup (load_quizzes [goodRow1, badRow, goodRow3]).1 3 = none := by
  decide

/-- Witness for the amended claim C7 at the concrete three-row reload. -/
theorem claim_C7_partial_catalog_witness :
    load_quizzes [goodRow1, badRow, goodRow3] = ((load_quizzes [goodRow1]).1, false) ∧
    (load_quizzes [goodRow1]).2 = true :=
  claim_C7_partial_catalog [goodRow1] badRow [goodRow3] (by decide) (by decide)

theorem teamCleanup_spec (w : Nat) :
    ∀ (tc : List (String × Nat)) (teams : List (String × Team)) (tid : String),
      dictLookup tc tid = some w →
      (∀ p ∈ tc, p.2 = w → p.1 = tid) →
      (tc.map Prod.fst).Nodup →
      (teamCleanup w tc teams).2 = dictErase teams tid ∧
      dictLookup (teamCleanup w tc teams).1 tid = none ∧
      (∀ p ∈ (teamCleanup w tc teams).1, p.2 ≠ w) := by
  intro tc
  induction tc with
  | nil => intro teams tid hmem _ _; exact absurd hmem (by simp [dictLookup])
  | cons p rest ih =>
    intro teams tid hmem huniq hkeys
    obtain ⟨k, c⟩ := p
    by_cases hc : c = w
    · subst hc
      have hk : k = tid := huniq (k, c) (List.mem_cons_self _ _) rfl
      subst hk
      have hnotin : k ∉ rest.map Prod.fst := (List.nodup_cons.mp (by simpa using hkeys)).1
      have hred : teamCleanup c ((k, c) :: rest) teams = (rest, dictErase teams k) := by
        simp [teamCleanup]
      rw [hred]
      refine ⟨rfl, dictLookup_eq_none_of_not_mem_keys rest k hnotin, ?_⟩
      intro q hq hqw
      exact hnotin (huniq q (List.mem_cons_of_mem _ hq) hqw ▸
        List.mem_map_of_mem Prod.fst hq)
    · have hk : ¬ k = tid := by
        intro hk
        rw [dictLookup_cons, if_pos hk] at hmem
        exact hc (Option.some.inj hmem)
      rw [dictLookup_cons, if_neg hk] at hmem
      have hred : teamCleanup w ((k, c) :: rest) teams =
          ((k, c) :: (teamCleanup w rest teams).1, (teamCleanup w rest teams).2) := by
        simp [teamCleanup, hc]
      obtain ⟨h2, h1, hall⟩ := ih teams tid hmem
        (fun q hq => huniq q (List.mem_cons_of_mem _ hq))
        ((List.nodup_cons.mp (by simpa using hkeys)).2)
      rw [hred]
      refine ⟨h2, ?_, ?_⟩
      · rw [dictLookup_cons, if_neg hk]
        exact h1
      · intro q hq
        rcases List.mem_cons.mp hq with rfl | hq'
        · exact hc
        · exact hall q hq'

/-- Claim C8: team disconnect cleanup.  When the connection registered for
team `tid` disconnects (and, as the join flow guarantees, that connection
is registered for no other team and no other role), the cleanup removes the
team's connection mapping and its roster entry (hence its score) together,
and a subsequent broadcast on the room does not attempt delivery to the
closed connection. -/
theorem claim_C8_team_disconnect (room : Room) (w : Nat) (tid : String)
    (hmem : dictLookup room.team_connections tid = some w)
    (huniq : ∀ p ∈ room.team_connections, p.2 = w → p.1 = tid)
    (hkeys : (room.team_connections.map Prod.fst).Nodup)
    (hhost : w ∉ room.host_connections)
    (hdisp : w ∉ room.display_connections) :
    dictLookup (ws_disconnect_cleanup room w).team_connections tid = none ∧
    dictLookup (ws_disconnect_cleanup room w).teams tid = none ∧
    w ∉ broadcastTargets (ws_disconnect_cleanup room w) := by
  obtain ⟨h2, h1, hall⟩ := teamCleanup_spec w room.team_connections room.teams tid
    hmem huniq hkeys
  have hteams : (ws_disconnect_cleanup room w).teams = dictErase room.teams tid := h2
  have htc : (ws_disconnect_cleanup room w).team_connections
      = (teamCleanup w room.team_connections room.teams).1 := rfl
  refine ⟨by rw [htc]; exact h1, by rw [hteams, dictLookup_dictErase, if_pos rfl], ?_⟩
  intro hw
  unfold broadcastTargets at hw
  rcases List.mem_append.mp hw with hw' | hw'
  · rcases List.mem_append.mp hw' with hw'' | hw''
    · rw [show (ws_disconnect_cleanup room w).host_connections
          = room.host_connections.erase w from rfl,
        List.erase_of_not_mem hhost] at hw''
      exact hhost hw''
    · obtain ⟨p, hp, hpw⟩ := List.mem_map.mp hw''
      exact hall p hp hpw
  · rw [show (ws_disconnect_cleanup room w).display_connections
        = room.display_connections.erase w from rfl,
      List.erase_of_not_mem hdisp] at hw'
    exact hdisp hw'

/-- Witness for claim C8: disconnecting team `t1`'s connection 5 from
`c6Room` forgets the team entirely and broadcast no longer targets 5. -/
theorem claim_C8_team_disconnect_witness :
    dictLookup (ws_disconnect_cleanup c6Room 5).team_connections "t1" = none ∧
    dictLookup (ws_disconnect_cleanup c6Room 5).teams "t1" = none ∧
    (5 : Nat) ∉ broadcastTargets (ws_disconnect_cleanup c6Room 5) :=
  claim_C8_team_disconnect c6Room 5 "t1" (by decide) (by decide) (by decide) (by decide) (by decide)


end BookedUp
